import Mathlib

/-!
# Verification of the exio reverse-tunneling system

A shallow embedding, in Lean 4, of the parts of the exio code base
(hub/server, agent/client, protocol helpers, auth, transport) that the
specification's testable claims are about.  Go strings are modelled as
`List Char`; Go maps used by the registry are modelled as association
lists / key lists; the atomic operations of `sync.Map` (`LoadOrStore`,
`Load`, `Store`) are modelled as atomic transitions on that state, so an
interleaving of concurrent calls is a sequence of those transitions.

Each definition is translated from the corresponding Go source
(file and function named in its doc comment).  A few helpers of the
`protocol` package are called from `internal/server/server.go` and unit
tests but their defining file is not part of the source tree; those are
modelled from the spec and marked `Modelled from the spec:`.
-/

namespace Exio

/-! ## Characters and strings

Go `strings.ToLower` restricted to ASCII, which is the only range the
subdomain validator accepts.  Core `Char.toLower` performs exactly the
ASCII fold (`'A'..'Z'` ↦ `'a'..'z'`, everything else unchanged). -/

/-- `strings.ToLower`, per character (ASCII fold, as in `Char.toLower`). -/
def goToLower (s : List Char) : List Char :=
  s.map Char.toLower

theorem char_toNat_ofNat_lt {n : Nat} (h : n < 55296) : (Char.ofNat n).toNat = n := by
  have hv : n.isValidChar := Or.inl h
  simp [Char.ofNat, hv, Char.ofNatAux, Char.toNat, UInt32.toNat, BitVec.toNat_ofNatLt]

theorem char_toLower_idem (c : Char) : c.toLower.toLower = c.toLower := by
  unfold Char.toLower
  by_cases h : 65 ≤ c.toNat ∧ c.toNat ≤ 90
  · rw [if_pos h]
    have h2 : (Char.ofNat (c.toNat + 32)).toNat = c.toNat + 32 :=
      char_toNat_ofNat_lt (by omega)
    rw [if_neg (by omega)]
  · rw [if_neg h, if_neg h]

theorem goToLower_idem (s : List Char) : goToLower (goToLower s) = goToLower s := by
  simp [goToLower, List.map_map, Function.comp_def, char_toLower_idem]

theorem goToLower_length (s : List Char) : (goToLower s).length = s.length := by
  simp [goToLower]

/-! ## Package `protocol` (pkg/protocol/protocol.go) -/

/-- The port-stripping loop at the start of `protocol.ExtractSubdomain`
(protocol.go:75-80): scan the host backwards and truncate at the last
`':'` if there is one. -/
def stripPort (host : List Char) : List Char :=
  match host.reverse.dropWhile (fun c => c ≠ ':') with
  | [] => host
  | _ :: rest => rest.reverse

/-- `protocol.ExtractSubdomain` (protocol.go:72-94) on the request's
`Host` value: after removing the port, the host must be strictly longer
than `"." ++ baseDomain` and end with it; the part before that suffix is
the subdomain, otherwise the result is empty. -/
def ExtractSubdomain (host baseDomain : List Char) : List Char :=
  let h := stripPort host
  if h.length ≤ baseDomain.length then []
  else
    let suffix := '.' :: baseDomain
    if suffix.length < h.length ∧ h.drop (h.length - suffix.length) = suffix
    then h.take (h.length - suffix.length)
    else []

/-- The digit-accumulation loop of `protocol.itoa` (protocol.go:118-122),
least-significant digit first, prepending into `acc`.  The first argument
is the loop bound (the Go loop runs at most one iteration per digit, and
we call it with the number itself, which dominates its digit count). -/
def itoaLoop : Nat → Nat → List Char → List Char
  | 0, _, acc => acc
  | _ + 1, 0, acc => acc
  | fuel + 1, i, acc => itoaLoop fuel (i / 10) (Char.ofNat (48 + i % 10) :: acc)

/-- `protocol.itoa` (protocol.go:106-130): decimal rendering of an
integer without `strconv`. -/
def itoa (i : Int) : List Char :=
  if i = 0 then ['0']
  else
    let n := i.natAbs
    if i < 0 then '-' :: itoaLoop n n [] else itoaLoop n n []

/-- `protocol.RewriteHostHeader` (protocol.go:97-103): the Host value it
installs — always `127.0.0.1`, with `":" + itoa port` appended unless the
target port is 80.  (Both `r.Host` and the `Host` header receive this
same value.) -/
def RewriteHostHeader (targetPort : Int) : List Char :=
  let h := "127.0.0.1".data
  if targetPort ≠ 80 then h ++ ':' :: itoa targetPort else h

/-- Modelled from the spec: the tunnel-kind constant for HTTP tunnels
(`protocol.TunnelTypeHTTP`; the defining file is not in the tree — the
spec's handshake table gives kind `http`). -/
def TunnelTypeHTTP : List Char := "http".data

/-- Modelled from the spec: the tunnel-kind constant for TCP tunnels
(`protocol.TunnelTypeTCP`; the defining file is not in the tree — the
spec's handshake table gives kind `tcp`). -/
def TunnelTypeTCP : List Char := "tcp".data

/-- Modelled from the spec: `protocol.ExtractTunnelIDFromPath` (called
from server.go:379 but its defining file is not in the tree).  The spec's
resolution table says: «First path segment after leading `/`». -/
def ExtractTunnelIDFromPath (path : List Char) : List Char :=
  let p := match path with
    | '/' :: rest => rest
    | other => other
  p.takeWhile (fun c => c ≠ '/')

/-- Modelled from the spec: `protocol.StripTunnelIDPrefix` (called from
server.go:426/430 but its defining file is not in the tree).  The spec
says: «The router strips exactly `"/" + tenant-id` (and an optional
trailing `/`) from the request path …; if the stripped path is empty the
forwarded path is `/`.  A partial-prefix match MUST NOT strip.» -/
def stripTunnelID (path tunnelID : List Char) : List Char :=
  let pre := '/' :: tunnelID
  if path = pre ∨ path = pre ++ ['/'] then ['/']
  else if pre ++ ['/'] <+: path then path.drop pre.length
  else path

/-- Everything after the first `://` in a URL string, if any (helper for
the referer model below). -/
def afterSchemeSep : List Char → Option (List Char)
  | ':' :: '/' :: '/' :: rest => some rest
  | _ :: rest => afterSchemeSep rest
  | [] => none

/-- Modelled from the spec: `protocol.ExtractTunnelIDFromReferer` (called
from server.go:398 but its defining file is not in the tree).  The spec
says: «First path segment of the referer's URL path».  The URL path of
`scheme://host/path…` starts at the first `/` after the `://` separator
(located by `afterSchemeSep` above). -/
def ExtractTunnelIDFromReferer (referer : List Char) : List Char :=
  match afterSchemeSep referer with
  | none => []
  | some hostAndPath => ExtractTunnelIDFromPath (hostAndPath.dropWhile (fun c => c ≠ '/'))

/-! ## Package `auth` (pkg/auth/auth.go) -/

/-- The error kinds of the `auth` package (`ErrMissingToken`,
`ErrInvalidToken`). -/
inductive AuthError
  | missingToken
  | invalidToken
deriving DecidableEq, Repr

/-- `auth.BearerPrefix` — the `"Bearer "` marker of the Authorization
header (auth.go:20). -/
def bearerMarker : List Char := "Bearer ".data

/-- `Authenticator.Validate` (auth.go:58-66): empty provided token is
`missing`; `subtle.ConstantTimeCompare(token, provided) != 1` — i.e.
inequality of the byte strings — is `invalid`; otherwise success
(`none`). -/
def authValidate (token provided : List Char) : Option AuthError :=
  if provided = [] then some .missingToken
  else if token ≠ provided then some .invalidToken
  else none

/-- `Authenticator.ValidateRequest` (auth.go:70-82): `header` is the
value of the `Authorization` request header, with `[]` standing for Go's
`""` (returned by `Header.Get` when the header is absent). -/
def ValidateRequest (token header : List Char) : Option AuthError :=
  if header = [] then some .missingToken
  else if ¬ (bearerMarker <+: header) then some .invalidToken
  else authValidate token (header.drop bearerMarker.length)

/-! ## Registry (internal/server/registry.go) -/

/-- Character class `[a-z0-9]` of `validSubdomainRegex`
(registry.go:30). -/
def isLowerAlnum (c : Char) : Bool :=
  (97 ≤ c.toNat && c.toNat ≤ 122) || (48 ≤ c.toNat && c.toNat ≤ 57)

/-- Character class `[a-z0-9-]` of `validSubdomainRegex`
(registry.go:30). -/
def isSubdomainMid (c : Char) : Bool :=
  isLowerAlnum c || c = '-'

/-- `validSubdomainRegex.MatchString`
(`^[a-z0-9][a-z0-9-]{1,61}[a-z0-9]$`, registry.go:30): a first character
in `[a-z0-9]`, 1 to 61 characters in `[a-z0-9-]`, a last character in
`[a-z0-9]`. -/
def matchesSubdomainRegex (s : List Char) : Bool :=
  match s with
  | [] => false
  | c :: rest =>
    match rest.getLast? with
    | none => false
    | some d =>
      isLowerAlnum c && isLowerAlnum d && rest.dropLast.all isSubdomainMid
        && decide (1 ≤ rest.dropLast.length) && decide (rest.dropLast.length ≤ 61)

/-- `server.ValidateSubdomain` (registry.go:89-107): lower-case the
candidate, then check length 3..63 and the regex.  `true` stands for a
`nil` error. -/
def ValidateSubdomain (s : List Char) : Bool :=
  let t := goToLower s
  if t.length < 3 then false
  else if t.length > 63 then false
  else matchesSubdomainRegex t

/-- Result of a `Register` call: `nil` / `ErrSubdomainTaken` /
`ErrInvalidSubdomain`. -/
inductive RegResult
  | ok
  | taken
  | invalid
deriving DecidableEq, Repr

/-- `SessionRegistry.RegisterWithOptions` (registry.go:116-138), acting
on the set of live tenant keys of `r.sessions`.  The entry payload
(session, tunnel type, port, listener, limiter) plays no role in the
claims, so the state keeps only the keys.  `sessions.LoadOrStore` is one
atomic step: check membership and insert if absent. -/
def RegisterWithOptions (st : List (List Char)) (subdomain : List Char) :
    RegResult × List (List Char) :=
  let sub := goToLower subdomain
  if ValidateSubdomain sub then
    if sub ∈ st then (.taken, st) else (.ok, sub :: st)
  else (.invalid, st)

/-- A sequence of `Register` calls executed atomically one after the
other — every interleaving of concurrent `Register` calls is equal to
one such sequence, because the only state-changing step of each call
(`LoadOrStore`) is a single atomic operation. -/
def runRegisters : List (List Char) → List (List Char) → List RegResult × List (List Char)
  | [], st => ([], st)
  | id :: ids, st =>
    let p := RegisterWithOptions st id
    let q := runRegisters ids p.2
    (p.1 :: q.1, q.2)

/-- `SessionRegistry.Exists` (registry.go:167-171): lower-case the key
and look it up in the session map. -/
def registryExists (registry : List (List Char)) (id : List Char) : Bool :=
  decide (goToLower id ∈ registry)

/-- The scan loop of `AllocateTCPPort` (registry.go:74-79):
`for port := start; port <= end; port++`, returning the first port not in
the allocation map.  The first argument is the number of loop iterations
left (`end + 1 - start` at the entry of the loop). -/
def allocScan (allocated : List Nat) : Nat → Nat → Option Nat
  | _, 0 => none
  | port, fuel + 1 =>
    if port ∈ allocated then allocScan allocated (port + 1) fuel else some port

/-- `SessionRegistry.AllocateTCPPort` (registry.go:70-81), acting on the
set of allocated ports (the keys of `r.tcpPorts`).  The whole scan runs
under `r.tcpPortMu`, so it is one atomic transition; `none` models the
`"no available TCP ports"` error. -/
def AllocateTCPPort (allocated : List Nat) (portStart portEnd : Nat) :
    Option (Nat × List Nat) :=
  match allocScan allocated portStart (portEnd + 1 - portStart) with
  | some p => some (p, p :: allocated)
  | none => none

/-- `SessionRegistry.ReleaseTCPPort` (registry.go:84-86). -/
def ReleaseTCPPort (allocated : List Nat) (port : Nat) : List Nat :=
  allocated.erase port

/-! ## Hub handlers (internal/server/server.go) -/

/-- Outcome of `Server.handleConnect` (server.go:160-238) up to and
including the WebSocket upgrade: the HTTP error written, or the upgrade
together with the normalized subdomain, effective tunnel type, allocated
TCP port (if any) and the extra response headers sent with the 101. -/
inductive ConnectOutcome
  | unauthorized
  | badRequest
  | conflict
  | serviceUnavailable
  | internalError
  | upgrade (subdomain tunnelType : List Char) (tcpPort : Option Nat)
      (responseHeaders : List (List Char × List Char))
deriving DecidableEq, Repr

/-- `Server.handleConnect` (server.go:160-238): authenticate (401),
require the subdomain parameter (400), default and validate the tunnel
type (400), validate the subdomain (400), reject a live subdomain (409),
for TCP allocate a port (503 when exhausted) and start the listener
(500 on failure, abstracted by `listenOk`), then upgrade, attaching the
`X-Exio-TCP-Port` header when a TCP port was allocated.  `authHeader`
and the query parameters use `[]` for Go's `""` (absent). -/
def handleConnect (token authHeader subParam typeParam : List Char)
    (registry : List (List Char)) (allocated : List Nat)
    (portStart portEnd : Nat) (listenOk : Bool) : ConnectOutcome :=
  if (ValidateRequest token authHeader).isSome then .unauthorized
  else if subParam = [] then .badRequest
  else
    let sub := goToLower subParam
    let ttype := if typeParam = [] then TunnelTypeHTTP else typeParam
    if ttype ≠ TunnelTypeHTTP ∧ ttype ≠ TunnelTypeTCP then .badRequest
    else if ¬ ValidateSubdomain sub then .badRequest
    else if registryExists registry sub then .conflict
    else if ttype = TunnelTypeTCP then
      match AllocateTCPPort allocated portStart portEnd with
      | none => .serviceUnavailable
      | some (port, _) =>
        if ¬ listenOk then .internalError
        else
          .upgrade sub ttype (some port)
            (if 0 < port then [("X-Exio-TCP-Port".data, itoa port)] else [])
    else .upgrade sub ttype none []

/-- `http.SameSite` as used by the routing cookie. -/
inductive SameSiteMode
  | defaultMode
  | laxMode
  | strictMode
  | noneMode
deriving DecidableEq, Repr

/-- The fields of the `http.Cookie` literal at server.go:413-420. -/
structure SetCookie where
  name : List Char
  value : List Char
  path : List Char
  maxAge : Int
  httpOnly : Bool
  sameSite : SameSiteMode
deriving DecidableEq, Repr

/-- The name of the routing cookie read at server.go:386 and set at
server.go:414. -/
def routingCookieName : List Char := "exio_tunnel".data

/-- Outcome of the path-mode routing part of `Server.handleRequest`:
either 404, or the resolved tunnel id, the (possibly stripped) path to
forward, and the routing cookie, if one is set on the response. -/
inductive RouteOutcome
  | notFound
  | routed (tunnelID newPath : List Char) (cookie : Option SetCookie)
deriving DecidableEq, Repr

/-- The path-routing-mode part of `Server.handleRequest`
(server.go:373-434): tenant from the first path segment if live, else
from the `exio_tunnel` cookie if present, non-empty and live, else from
the `Referer` header's first path segment if live; 404 when none works.
The routing cookie is set, and the tunnel-id prefix stripped from the
path, only when the tenant came from the path itself.  `cookies` is the
request's cookie list (`r.Cookie` returns the first match), and
`referer` uses `[]` for an absent header. -/
def handleRequestPathMode (registry : List (List Char)) (path : List Char)
    (cookies : List (List Char × List Char)) (referer : List Char) : RouteOutcome :=
  let tid0 := ExtractTunnelIDFromPath path
  let fromPath := tid0 ≠ [] && registryExists registry tid0
  let tid1 :=
    if fromPath then tid0
    else
      match cookies.lookup routingCookieName with
      | some v => if v ≠ [] && registryExists registry v then v else tid0
      | none => tid0
  let tid2 :=
    if tid1 = [] || ¬ registryExists registry tid1 then
      if referer ≠ [] then
        let rid := ExtractTunnelIDFromReferer referer
        if rid ≠ [] && registryExists registry rid then rid else tid1
      else tid1
    else tid1
  if tid2 = [] || ¬ registryExists registry tid2 then .notFound
  else
    let ck :=
      if fromPath then
        some { name := routingCookieName, value := tid2, path := "/".data,
               maxAge := 3600, httpOnly := true, sameSite := .laxMode }
      else none
    let newPath := if fromPath then stripTunnelID path tid2 else path
    .routed tid2 newPath ck

/-! ## Agent (internal/client/client.go) -/

/-- The Host-rewrite step of `Client.handleStream` (client.go:388-397):
when `RewriteHost` is configured the request's Host (and `Host` header)
becomes `fmt.Sprintf("%s:%d", LocalHost, LocalPort)`; otherwise the
parsed request's Host is left alone. -/
def handleStreamHost (rewriteHost : Bool) (reqHost localHost : List Char)
    (localPort : Int) : List Char :=
  if rewriteHost then localHost ++ ':' :: itoa localPort else reqHost

/-- The port-reading step of `Client.Connect` (client.go:232-239): for a
TCP tunnel the agent reads the `X-Exio-TCP-Port` header of the 101
response (`Header.Get` yields `""`, i.e. `[]`, when absent). -/
def clientReadTCPPortHeader (responseHeaders : List (List Char × List Char)) : List Char :=
  (responseHeaders.lookup "X-Exio-TCP-Port".data).getD []

/-! ## Package `transport` (pkg/transport/transport.go) -/

/-- The mutable state of a `transport.Session` that its methods consult:
the `closed` flag (guarded by `closeMu`) and whether `cancel()` has been
called on the session context. -/
structure SessionState where
  closed : Bool
  ctxCancelled : Bool
deriving DecidableEq, Repr

/-- Result of `OpenStream` / `AcceptStream`: a stream, the distinguished
`ErrSessionClosed`, or some other error bubbled up from yamux. -/
inductive StreamResult
  | stream
  | errSessionClosed
  | errOther (code : Nat)
deriving DecidableEq, Repr

/-- `Session.OpenStream` (transport.go:185-193): read `closed` under the
read lock; fail fast with `ErrSessionClosed` when set, otherwise
delegate to `yamuxSession.Open()`, whose result is the parameter
`yamuxOpen`. -/
def OpenStream (s : SessionState) (yamuxOpen : StreamResult) : StreamResult :=
  if s.closed then .errSessionClosed else yamuxOpen

/-- `Session.AcceptStream` (transport.go:196-206): same closed-check,
then delegate to `yamuxSession.Accept()` without holding the lock. -/
def AcceptStream (s : SessionState) (yamuxAccept : StreamResult) : StreamResult :=
  if s.closed then .errSessionClosed else yamuxAccept

/-- `Session.Close` (transport.go:209-231) under the write lock: a
second call returns `nil` at once; the first call flips `closed`,
cancels the context and closes the yamux session and the WebSocket —
`yamuxErr` / `wsErr` say whether those two underlying closes fail, and
the returned `Option` is the combined error (`none` = `nil`). -/
def CloseSession (s : SessionState) (yamuxErr wsErr : Bool) :
    Option Unit × SessionState :=
  if s.closed then (none, s)
  else ((if yamuxErr || wsErr then some () else none),
        { closed := true, ctxCancelled := true })

/-- The message type of a WebSocket frame as seen by
`websocket.Conn.NextReader`; only `BinaryMessage` is consumed by the
adapter. -/
inductive WsMsgType
  | binary
  | text
  | other
deriving DecidableEq, Repr

/-- One WebSocket message: its type and payload bytes. -/
structure WsMsg where
  msgType : WsMsgType
  payload : List Nat
deriving DecidableEq, Repr

/-- Result of one `wsConn.Read` call: the bytes placed into the caller's
buffer, or the error propagated from `NextReader` (represented by the
numeric code the state carries). -/
inductive WsReadResult
  | ok (bytes : List Nat)
  | fail (code : Nat)
deriving DecidableEq, Repr

/-- `wsConn.Read` (transport.go:55-81) for a destination buffer of `n`
bytes.  `reader` is the in-progress message reader (`c.reader`, with the
bytes it still holds), `msgs` the messages `NextReader` will deliver
next, in arrival order, and `errCode` the error `NextReader` returns
once they are exhausted.  The underlying message reader is the standard
one: on a non-empty remainder it yields `min n remaining` bytes with a
`nil` error, on an empty remainder `(0, io.EOF)` — so each loop
iteration either returns, clears an exhausted reader, skips a
non-binary message, or installs the next binary message's reader. -/
def wsConnRead (n : Nat) :
    Option (List Nat) → List WsMsg → Nat → WsReadResult × Option (List Nat) × List WsMsg
  | some (b :: bs), msgs, _ =>
    (.ok ((b :: bs).take n), some ((b :: bs).drop n), msgs)
  | some [], msgs, e => wsConnRead n none msgs e
  | none, [], e => (.fail e, none, [])
  | none, m :: rest, e =>
    if m.msgType = .binary then wsConnRead n (some m.payload) rest e
    else wsConnRead n none rest e
termination_by reader msgs _ => (msgs.length, match reader with | some _ => 1 | none => 0)

/-- The byte stream still deliverable from an adapter state: the bytes
of the in-progress reader followed by the payloads of the pending binary
messages, in arrival order. -/
def wsStream (reader : Option (List Nat)) (msgs : List WsMsg) : List Nat :=
  reader.getD [] ++ ((msgs.filter (fun m => m.msgType = .binary)).map WsMsg.payload).flatten

/-! ## Helper lemmas -/

theorem dropWhile_append_all {p : Char → Bool} {l₁ l₂ : List Char}
    (h : ∀ x ∈ l₁, p x) : (l₁ ++ l₂).dropWhile p = l₂.dropWhile p := by
  induction l₁ with
  | nil => rfl
  | cons a l ih =>
    rw [List.cons_append, List.dropWhile_cons_of_pos (h a (List.mem_cons_self a l))]
    exact ih fun x hx => h x (List.mem_cons_of_mem a hx)

theorem stripPort_of_not_mem {host : List Char} (h : ':' ∉ host) :
    stripPort host = host := by
  unfold stripPort
  have h2 : host.reverse.dropWhile (fun c => decide (c ≠ ':')) = [] := by
    rw [List.dropWhile_eq_nil_iff]
    intro x hx
    rw [List.mem_reverse] at hx
    simp only [decide_eq_true_eq]
    rintro rfl
    exact h hx
  rw [h2]

theorem stripPort_append_colon (a b : List Char) (hb : ':' ∉ b) :
    stripPort (a ++ ':' :: b) = a := by
  unfold stripPort
  have h1 : (a ++ ':' :: b).reverse = b.reverse ++ ':' :: a.reverse := by
    simp
  rw [h1]
  have h2 : (b.reverse ++ ':' :: a.reverse).dropWhile (fun c => decide (c ≠ ':'))
      = ':' :: a.reverse := by
    rw [dropWhile_append_all]
    · rw [List.dropWhile_cons_of_neg (by simp)]
    · intro x hx
      rw [List.mem_reverse] at hx
      simp only [decide_eq_true_eq]
      rintro rfl
      exact hb hx
  rw [h2]
  exact List.reverse_reverse a

theorem extract_of_dotted (T B : List Char) (hT : T ≠ [])
    (hcolon : ':' ∉ T ++ '.' :: B) :
    ExtractSubdomain (T ++ '.' :: B) B = T := by
  have hTlen : 0 < T.length := List.length_pos.mpr hT
  unfold ExtractSubdomain
  rw [stripPort_of_not_mem hcolon]
  have hlen : (T ++ '.' :: B).length = T.length + B.length + 1 := by
    simp [List.length_append]
    omega
  rw [if_neg (by omega)]
  have hcond : ('.' :: B).length < (T ++ '.' :: B).length ∧
      (T ++ '.' :: B).drop ((T ++ '.' :: B).length - ('.' :: B).length) = '.' :: B := by
    constructor
    · simp only [List.length_cons]
      omega
    · have hk : (T ++ '.' :: B).length - ('.' :: B).length = T.length := by
        simp only [List.length_cons]
        omega
      rw [hk, List.drop_left]
  rw [if_pos hcond]
  have hk : (T ++ '.' :: B).length - ('.' :: B).length = T.length := by
    simp only [List.length_cons]
    omega
  rw [hk, List.take_left]

/-! ## Claims -/

/-- C4: subdomain extraction round-trip.  For a non-empty colon-free
tenant `T` and a non-empty colon-free base domain `B` (base domains are
DNS names, hence colon-free; the colon only appears as the port
separator, handled separately): `ExtractSubdomain` maps host `T.B` to
`T`, host `T.B:port` to `T` for a colon-free port string, the bare base
domain to `""`, and any colon-free host that does not end in `.B` (such
as `other.zzz`) to `""`.  The `x.y.B ↦ x.y` case of the claim is the
first conjunct at `T = x.y`. -/
theorem C4_extract_subdomain (T B P H : List Char)
    (hT : T ≠ []) (hTc : ':' ∉ T) (hBc : ':' ∉ B) (hPc : ':' ∉ P)
    (hHc : ':' ∉ H) (hHs : ¬ ('.' :: B) <:+ H) :
    ExtractSubdomain (T ++ '.' :: B) B = T ∧
    ExtractSubdomain (T ++ '.' :: (B ++ ':' :: P)) B = T ∧
    ExtractSubdomain B B = [] ∧
    ExtractSubdomain H B = [] := by
  have hdot : ':' ∉ T ++ '.' :: B := by
    intro hm
    rcases List.mem_append.mp hm with h | h
    · exact hTc h
    · rcases List.mem_cons.mp h with h | h
      · exact absurd h (by decide)
      · exact hBc h
  refine ⟨extract_of_dotted T B hT hdot, ?_, ?_, ?_⟩
  · have hassoc : T ++ '.' :: (B ++ ':' :: P) = (T ++ '.' :: B) ++ ':' :: P := by
      simp
    rw [hassoc]
    unfold ExtractSubdomain
    rw [stripPort_append_colon _ _ hPc]
    have h1 := extract_of_dotted T B hT hdot
    unfold ExtractSubdomain at h1
    rw [stripPort_of_not_mem hdot] at h1
    exact h1
  · unfold ExtractSubdomain
    rw [stripPort_of_not_mem hBc, if_pos (le_refl B.length)]
  · unfold ExtractSubdomain
    rw [stripPort_of_not_mem hHc]
    by_cases hlen : H.length ≤ B.length
    · rw [if_pos hlen]
    · rw [if_neg hlen, if_neg]
      rintro ⟨hlt, heq⟩
      apply hHs
      simp only [List.length_cons] at heq
      refine ⟨H.take (H.length - (B.length + 1)), ?_⟩
      rw [← heq, List.take_append_drop]

/-- C4 witness: the claim's own example inputs — tenant `myapp`, base
`dev.example.com`, port `8080`, foreign host `other.zzz` — together with
the nested-subdomain instance `x.y.dev.example.com ↦ x.y`. -/
theorem C4_extract_subdomain_witness :
    ExtractSubdomain ("myapp".data ++ '.' :: "dev.example.com".data) "dev.example.com".data
      = "myapp".data ∧
    ExtractSubdomain ("myapp".data ++ '.' :: ("dev.example.com".data ++ ':' :: "8080".data))
      "dev.example.com".data = "myapp".data ∧
    ExtractSubdomain "dev.example.com".data "dev.example.com".data = [] ∧
    ExtractSubdomain "other.zzz".data "dev.example.com".data = [] ∧
    ExtractSubdomain ("x.y".data ++ '.' :: "dev.example.com".data) "dev.example.com".data
      = "x.y".data := by
  have h1 := C4_extract_subdomain "myapp".data "dev.example.com".data "8080".data
    "other.zzz".data (by decide) (by decide) (by decide) (by decide) (by decide) (by decide)
  have h2 := C4_extract_subdomain "x.y".data "dev.example.com".data "8080".data
    "other.zzz".data (by decide) (by decide) (by decide) (by decide) (by decide) (by decide)
  exact ⟨h1.1, h1.2.1, h1.2.2.1, h1.2.2.2, h2.1⟩

/-- C3: path-strip behaviour (on the spec-modelled `stripTunnelID`,
whose Go source `protocol.StripTunnelIDPrefix` is not in the tree).  For
any tenant `T` and path `P` that does not start with `/T` followed by
end-of-string or `/`, the strip is the identity — in particular the
partial prefix `/abcdef` with tenant `abc` is untouched; `/T/rest` is
stripped to `/rest` (for `rest = ""` this is `/T/ ↦ /`); and `/T` maps
to `/`. -/
theorem C3_strip_tunnel_id (T P rest : List Char)
    (h : ¬ (P = '/' :: T ∨ ('/' :: T) ++ ['/'] <+: P)) :
    stripTunnelID P T = P ∧
    stripTunnelID (('/' :: T) ++ '/' :: rest) T = '/' :: rest ∧
    stripTunnelID ('/' :: T) T = ['/'] ∧
    stripTunnelID (('/' :: T) ++ ['/']) T = ['/'] := by
  push_neg at h
  refine ⟨?_, ?_, ?_, ?_⟩
  · have hA : ¬ (P = '/' :: T ∨ P = ('/' :: T) ++ ['/']) := by
      rintro (h1 | h1)
      · exact h.1 h1
      · exact h.2 ⟨[], by simp [h1]⟩
    simp only [stripTunnelID]
    rw [if_neg hA, if_neg h.2]
  · cases rest with
    | nil =>
      simp [stripTunnelID]
    | cons r rs =>
      have hA : ¬ ((('/' :: T) ++ '/' :: r :: rs) = '/' :: T ∨
          (('/' :: T) ++ '/' :: r :: rs) = ('/' :: T) ++ ['/']) := by
        rintro (h1 | h1)
        · have := congrArg List.length h1
          simp [List.length_append] at this
        · have := congrArg List.length h1
          simp [List.length_append] at this
      simp only [stripTunnelID]
      rw [if_neg hA, if_pos ⟨r :: rs, by simp⟩]
      have : ('/' :: T) ++ '/' :: r :: rs = ('/' :: T) ++ ('/' :: r :: rs) := rfl
      rw [this, List.drop_left]
  · simp [stripTunnelID]
  · simp [stripTunnelID]

/-- C3 witness: tenant `abc` against the spec's partial-prefix example
path `/abcdef` (no strip), and the paths `/abc/foo`, `/abc`, `/abc/`. -/
theorem C3_strip_tunnel_id_witness :
    stripTunnelID "/abcdef".data "abc".data = "/abcdef".data ∧
    stripTunnelID (('/' :: "abc".data) ++ '/' :: "foo".data) "abc".data = '/' :: "foo".data ∧
    stripTunnelID ('/' :: "abc".data) "abc".data = ['/'] ∧
    stripTunnelID (('/' :: "abc".data) ++ ['/']) "abc".data = ['/'] :=
  C3_strip_tunnel_id "abc".data "/abcdef".data "foo".data (by decide)

theorem validateSubdomain_goToLower (s : List Char) :
    ValidateSubdomain (goToLower s) = ValidateSubdomain s := by
  simp only [ValidateSubdomain, goToLower_idem]

theorem register_taken {st : List (List Char)} {id : List Char}
    (hv : ValidateSubdomain id = true) (hm : goToLower id ∈ st) :
    RegisterWithOptions st id = (.taken, st) := by
  simp only [RegisterWithOptions]
  rw [validateSubdomain_goToLower, hv, if_pos rfl, if_pos hm]

theorem runRegisters_taken {id : List Char} (hv : ValidateSubdomain id = true)
    (n : Nat) (st : List (List Char)) (hm : goToLower id ∈ st) :
    runRegisters (List.replicate n id) st = (List.replicate n .taken, st) := by
  induction n with
  | zero => rfl
  | succ k ih =>
    rw [List.replicate_succ]
    simp only [runRegisters]
    rw [register_taken hv hm, ih, List.replicate_succ]

/-- C1: tenant uniqueness under concurrent registration.  Every
interleaving of concurrent `Register` calls is a sequence of atomic
`LoadOrStore` transitions (see `runRegisters`): for any number of
`Register(id)` calls against a registry that does not yet hold `id`, the
first returns success and every other one returns `ErrSubdomainTaken`,
the final state holds exactly one new entry for `id`, and a single
`Register` step never duplicates a live tenant key (so the registry
never contains two live entries with the same tenant-id). -/
theorem C1_register_unique (st : List (List Char)) (id : List Char) (n : Nat)
    (st2 : List (List Char)) (id2 : List Char)
    (hv : ValidateSubdomain id = true) (hm : goToLower id ∉ st)
    (hnd : st2.Nodup) :
    (runRegisters (List.replicate (n + 1) id) st).1
        = .ok :: List.replicate n .taken ∧
    (runRegisters (List.replicate (n + 1) id) st).2 = goToLower id :: st ∧
    ((RegisterWithOptions st2 id2).2).Nodup := by
  have hfirst : RegisterWithOptions st id = (.ok, goToLower id :: st) := by
    simp only [RegisterWithOptions]
    rw [validateSubdomain_goToLower, hv, if_pos rfl, if_neg hm]
  refine ⟨?_, ?_, ?_⟩
  · rw [List.replicate_succ]
    simp only [runRegisters]
    rw [hfirst, runRegisters_taken hv n _ (List.mem_cons_self _ _)]
  · rw [List.replicate_succ]
    simp only [runRegisters]
    rw [hfirst, runRegisters_taken hv n _ (List.mem_cons_self _ _)]
  · simp only [RegisterWithOptions]
    split
    · split
      · exact hnd
      · exact List.Nodup.cons (by assumption) hnd
    · exact hnd

/-- C1 witness: three concurrent `Register("myapp")` calls against an
empty registry — one success, two `taken` — plus one step against a
registry already holding `myapp`, which keeps the key set duplicate-free. -/
theorem C1_register_unique_witness :
    (runRegisters (List.replicate 3 "myapp".data) []).1
        = .ok :: List.replicate 2 .taken ∧
    (runRegisters (List.replicate 3 "myapp".data) []).2
        = goToLower "myapp".data :: [] ∧
    ((RegisterWithOptions ["myapp".data] "myapp".data).2).Nodup :=
  C1_register_unique [] "myapp".data 2 ["myapp".data] "myapp".data
    (by decide) (by decide) (by decide)

theorem allocScan_some {allocated : List Nat} :
    ∀ fuel port p, allocScan allocated port fuel = some p →
      port ≤ p ∧ p < port + fuel ∧ p ∉ allocated ∧
        (∀ q, port ≤ q → q < p → q ∈ allocated) := by
  intro fuel
  induction fuel with
  | zero =>
    intro port p h
    simp [allocScan] at h
  | succ k ih =>
    intro port p h
    simp only [allocScan] at h
    by_cases hmem : port ∈ allocated
    · rw [if_pos hmem] at h
      obtain ⟨h1, h2, h3, h4⟩ := ih (port + 1) p h
      refine ⟨by omega, by omega, h3, fun q hq1 hq2 => ?_⟩
      rcases Nat.eq_or_lt_of_le hq1 with h5 | h5
      · rwa [h5] at hmem
      · exact h4 q h5 hq2
    · rw [if_neg hmem] at h
      cases h
      exact ⟨le_refl _, by omega, hmem, fun q hq1 hq2 => absurd hq1 (by omega)⟩

theorem allocScan_none {allocated : List Nat} :
    ∀ fuel port, allocScan allocated port fuel = none ↔
      ∀ q, port ≤ q → q < port + fuel → q ∈ allocated := by
  intro fuel
  induction fuel with
  | zero =>
    intro port
    constructor
    · intro _ q h1 h2
      omega
    · intro _
      rfl
  | succ k ih =>
    intro port
    simp only [allocScan]
    by_cases hmem : port ∈ allocated
    · rw [if_pos hmem, ih]
      constructor
      · intro h q h1 h2
        rcases Nat.eq_or_lt_of_le h1 with h5 | h5
        · rwa [h5] at hmem
        · exact h q h5 (by omega)
      · intro h q h1 h2
        exact h q (by omega) (by omega)
    · rw [if_neg hmem]
      constructor
      · intro h
        exact absurd h (by simp)
      · intro h
        exact absurd (h port (le_refl _) (by omega)) hmem

/-- C5: `AllocateTCPPort` scans the configured range in ascending order
(under `tcpPortMu`, hence atomically) and returns the first unallocated
port, recording it: the returned port lies in `[portStart, portEnd]`,
was free, and every smaller port of the range was taken; the updated
allocation set stays duplicate-free (any two simultaneously held ports
are distinct) and stays inside the range; and when every port of a range
is taken the call reports exhaustion (`none`, Go's
`"no available TCP ports"`). -/
theorem C5_allocate_tcp_port (allocated : List Nat) (portStart portEnd p : Nat)
    (st' allocated2 : List Nat) (portStart2 portEnd2 : Nat)
    (hnd : allocated.Nodup)
    (hrange : ∀ x ∈ allocated, portStart ≤ x ∧ x ≤ portEnd)
    (hsome : AllocateTCPPort allocated portStart portEnd = some (p, st'))
    (hfull : ∀ q, portStart2 ≤ q → q ≤ portEnd2 → q ∈ allocated2) :
    portStart ≤ p ∧ p ≤ portEnd ∧ p ∉ allocated ∧
    (∀ q, portStart ≤ q → q < p → q ∈ allocated) ∧
    st' = p :: allocated ∧ st'.Nodup ∧
    (∀ x ∈ st', portStart ≤ x ∧ x ≤ portEnd) ∧
    AllocateTCPPort allocated2 portStart2 portEnd2 = none := by
  unfold AllocateTCPPort at hsome
  cases hscan : allocScan allocated portStart (portEnd + 1 - portStart) with
  | none =>
    rw [hscan] at hsome
    exact absurd hsome (by simp)
  | some p0 =>
    rw [hscan] at hsome
    have hinj := Option.some.inj hsome
    have hp0 : p0 = p := congrArg Prod.fst hinj
    have hst : st' = p :: allocated := by
      have h2 := congrArg Prod.snd hinj
      simp only at h2
      rw [← h2, hp0]
    subst hp0
    obtain ⟨h1, h2, h3, h4⟩ := allocScan_some _ _ _ hscan
    have hfuel : portEnd + 1 - portStart ≠ 0 := by
      intro h0
      rw [h0] at hscan
      simp [allocScan] at hscan
    refine ⟨h1, by omega, h3, h4, hst, ?_, ?_, ?_⟩
    · rw [hst]
      exact List.Nodup.cons h3 hnd
    · rw [hst]
      intro x hx
      rcases List.mem_cons.mp hx with h5 | h5
      · subst h5
        exact ⟨h1, by omega⟩
      · exact hrange x h5
    · unfold AllocateTCPPort
      rw [(allocScan_none _ _).mpr (fun q hq1 hq2 => hfull q hq1 (by omega))]

/-- C5 witness: with port 10000 already taken in range 10000..10100 the
allocator hands out 10001 and records it; with ports 5 and 6 taken the
range 5..6 is exhausted. -/
theorem C5_allocate_tcp_port_witness :
    10000 ≤ 10001 ∧ 10001 ≤ 10100 ∧ 10001 ∉ [10000] ∧
    (∀ q, 10000 ≤ q → q < 10001 → q ∈ [10000]) ∧
    [10001, 10000] = 10001 :: [10000] ∧ List.Nodup [10001, 10000] ∧
    (∀ x ∈ [10001, 10000], 10000 ≤ x ∧ x ≤ 10100) ∧
    AllocateTCPPort [5, 6] 5 6 = none :=
  C5_allocate_tcp_port [10000] 10000 10100 10001 [10001, 10000] [5, 6] 5 6
    (by decide) (by decide) (by decide)
    (fun q h1 h2 => by interval_cases q <;> simp)

theorem registryExists_goToLower (registry : List (List Char)) (id : List Char) :
    registryExists registry (goToLower id) = registryExists registry id := by
  simp [registryExists, goToLower_idem]

/-- C2: the `/_connect` handshake error ladder, in evaluation order.
A failed bearer check yields 401 whatever the other parameters are; with
the bearer accepted, a missing tenant-id, an unknown kind or a tenant-id
failing validation yields 400 whatever the registry holds; with those
checks passed, a live tenant-id yields 409 whatever the port state is;
and with all of that passed, kind `tcp` against an exhausted port range
yields 503.  All outcomes are produced before the WebSocket upgrade
(`ConnectOutcome.upgrade` is only reached past every check). -/
theorem C2_handle_connect_errors
    (t1 a1 s1 y1 : List Char) (r1 : List (List Char)) (al1 : List Nat)
    (ps1 pe1 : Nat) (lo1 : Bool)
    (t2 a2 s2 y2 : List Char) (r2 : List (List Char)) (al2 : List Nat)
    (ps2 pe2 : Nat) (lo2 : Bool)
    (t3 a3 s3 y3 : List Char) (r3 : List (List Char)) (al3 : List Nat)
    (ps3 pe3 : Nat) (lo3 : Bool)
    (t4 a4 s4 : List Char) (r4 : List (List Char)) (al4 : List Nat)
    (ps4 pe4 : Nat) (lo4 : Bool)
    (h1 : (ValidateRequest t1 a1).isSome = true)
    (h2a : ValidateRequest t2 a2 = none)
    (h2b : s2 = [] ∨ (y2 ≠ [] ∧ y2 ≠ TunnelTypeHTTP ∧ y2 ≠ TunnelTypeTCP) ∨
      ValidateSubdomain s2 = false)
    (h3a : ValidateRequest t3 a3 = none) (h3b : s3 ≠ [])
    (h3c : y3 = [] ∨ y3 = TunnelTypeHTTP ∨ y3 = TunnelTypeTCP)
    (h3d : ValidateSubdomain s3 = true) (h3e : registryExists r3 s3 = true)
    (h4a : ValidateRequest t4 a4 = none) (h4b : s4 ≠ [])
    (h4c : ValidateSubdomain s4 = true) (h4d : registryExists r4 s4 = false)
    (h4e : AllocateTCPPort al4 ps4 pe4 = none) :
    handleConnect t1 a1 s1 y1 r1 al1 ps1 pe1 lo1 = .unauthorized ∧
    handleConnect t2 a2 s2 y2 r2 al2 ps2 pe2 lo2 = .badRequest ∧
    handleConnect t3 a3 s3 y3 r3 al3 ps3 pe3 lo3 = .conflict ∧
    handleConnect t4 a4 s4 TunnelTypeTCP r4 al4 ps4 pe4 lo4 = .serviceUnavailable := by
  refine ⟨?_, ?_, ?_, ?_⟩
  · simp only [handleConnect]
    rw [if_pos h1]
  · simp only [handleConnect]
    rw [if_neg (by simp [h2a])]
    rcases h2b with h | h | h
    · rw [if_pos h]
    · by_cases hs : s2 = []
      · rw [if_pos hs]
      · rw [if_neg hs, if_neg h.1, if_pos ⟨h.2.1, h.2.2⟩]
    · by_cases hs : s2 = []
      · rw [if_pos hs]
      · rw [if_neg hs]
        by_cases hty : ((if y2 = [] then TunnelTypeHTTP else y2) ≠ TunnelTypeHTTP ∧
            (if y2 = [] then TunnelTypeHTTP else y2) ≠ TunnelTypeTCP)
        · rw [if_pos hty]
        · rw [if_neg hty, if_pos (by simp [validateSubdomain_goToLower, h])]
  · rcases h3c with h | h | h <;>
      simp [handleConnect, h3a, h3b, h3d, h3e, h,
        validateSubdomain_goToLower, registryExists_goToLower,
        TunnelTypeHTTP, TunnelTypeTCP]
  · simp [handleConnect, h4a, h4b, h4c, h4d, h4e,
      validateSubdomain_goToLower, registryExists_goToLower,
      TunnelTypeHTTP, TunnelTypeTCP]

/-- C2 witness: against secret `s3cret` — a wrong bearer gets 401; a
too-short tenant-id `ab` gets 400; a live tenant-id `mydb` gets 409; a
`tcp` handshake for fresh `newdb` against the one-port range 7000..7000
with 7000 taken gets 503. -/
theorem C2_handle_connect_errors_witness :
    handleConnect "s3cret".data "Bearer wrong".data "mydb".data [] [] [] 0 0 true
      = .unauthorized ∧
    handleConnect "s3cret".data "Bearer s3cret".data "ab".data [] [] [] 0 0 true
      = .badRequest ∧
    handleConnect "s3cret".data "Bearer s3cret".data "mydb".data [] ["mydb".data] [] 0 0 true
      = .conflict ∧
    handleConnect "s3cret".data "Bearer s3cret".data "newdb".data TunnelTypeTCP [] [7000] 7000 7000 true
      = .serviceUnavailable :=
  C2_handle_connect_errors
    "s3cret".data "Bearer wrong".data "mydb".data [] [] [] 0 0 true
    "s3cret".data "Bearer s3cret".data "ab".data [] [] [] 0 0 true
    "s3cret".data "Bearer s3cret".data "mydb".data [] ["mydb".data] [] 0 0 true
    "s3cret".data "Bearer s3cret".data "newdb".data [] [7000] 7000 7000 true
    (by decide) (by decide) (Or.inr (Or.inr (by decide)))
    (by decide) (by decide) (Or.inl rfl) (by decide) (by decide)
    (by decide) (by decide) (by decide) (by decide) (by decide)

theorem closeSession_closed (s : SessionState) (y w : Bool) :
    ((CloseSession s y w).2).closed = true := by
  unfold CloseSession
  split
  · next h => exact h
  · rfl

/-- C9: after `Close()` has returned, every later `OpenStream` and
`AcceptStream` on the session fails fast with the distinguished
`ErrSessionClosed` — whatever the underlying yamux layer would have
produced, it is never consulted — and a second `Close()` is a no-op that
returns `nil` and leaves the state untouched (idempotence). -/
theorem C9_session_close (s : SessionState) (y1 w1 y2 w2 : Bool)
    (yamuxOpen yamuxAccept : StreamResult) :
    OpenStream (CloseSession s y1 w1).2 yamuxOpen = .errSessionClosed ∧
    AcceptStream (CloseSession s y1 w1).2 yamuxAccept = .errSessionClosed ∧
    CloseSession (CloseSession s y1 w1).2 y2 w2 = (none, (CloseSession s y1 w1).2) := by
  have hc := closeSession_closed s y1 w1
  refine ⟨?_, ?_, ?_⟩
  · unfold OpenStream
    rw [if_pos hc]
  · unfold AcceptStream
    rw [if_pos hc]
  · revert hc
    generalize (CloseSession s y1 w1).2 = s1
    intro hc
    unfold CloseSession
    rw [if_pos hc]

theorem wsConnRead_some_cons (n : Nat) (b : Nat) (bs : List Nat) (msgs : List WsMsg)
    (e : Nat) :
    wsConnRead n (some (b :: bs)) msgs e
      = (.ok ((b :: bs).take n), some ((b :: bs).drop n), msgs) := by
  simp only [wsConnRead]

theorem wsConnRead_some_nil (n : Nat) (msgs : List WsMsg) (e : Nat) :
    wsConnRead n (some []) msgs e = wsConnRead n none msgs e := by
  simp only [wsConnRead]

theorem wsConnRead_none_nil (n : Nat) (e : Nat) :
    wsConnRead n none [] e = (.fail e, none, []) := by
  simp only [wsConnRead]

theorem wsConnRead_none_cons (n : Nat) (m : WsMsg) (rest : List WsMsg) (e : Nat) :
    wsConnRead n none (m :: rest) e
      = if m.msgType = .binary then wsConnRead n (some m.payload) rest e
        else wsConnRead n none rest e := by
  simp only [wsConnRead]

theorem wsStream_some (l : List Nat) (msgs : List WsMsg) :
    wsStream (some l) msgs = l ++ wsStream none msgs := by
  simp [wsStream]

theorem wsStream_cons_binary (m : WsMsg) (rest : List WsMsg)
    (hb : m.msgType = .binary) :
    wsStream none (m :: rest) = m.payload ++ wsStream none rest := by
  simp [wsStream, List.filter_cons, hb]

theorem wsStream_cons_other (m : WsMsg) (rest : List WsMsg)
    (hb : ¬ m.msgType = .binary) :
    wsStream none (m :: rest) = wsStream none rest := by
  simp [wsStream, List.filter_cons, hb]

theorem wsConnRead_spec_none (n : Nat) (hn : 1 ≤ n) (e : Nat) :
    ∀ (msgs : List WsMsg),
      (∀ bytes reader2 msgs2,
        wsConnRead n none msgs e = (.ok bytes, reader2, msgs2) →
          bytes ≠ [] ∧ bytes.length ≤ n ∧
          bytes ++ wsStream reader2 msgs2 = wsStream none msgs) ∧
      (∀ c reader2 msgs2,
        wsConnRead n none msgs e = (.fail c, reader2, msgs2) →
          c = e ∧ wsStream none msgs = []) := by
  intro msgs
  induction msgs with
  | nil =>
    constructor
    · intro bytes r2 m2 h
      rw [wsConnRead_none_nil] at h
      cases h
    · intro c r2 m2 h
      rw [wsConnRead_none_nil] at h
      injection h with h1 h2
      injection h1 with h1
      exact ⟨h1.symm, rfl⟩
  | cons m rest ih =>
    by_cases hb : m.msgType = .binary
    · rcases hpay : m.payload with - | ⟨b, bs⟩
      · constructor
        · intro bytes r2 m2 h
          rw [wsConnRead_none_cons, if_pos hb, hpay, wsConnRead_some_nil] at h
          obtain ⟨h1, h2, h3⟩ := ih.1 bytes r2 m2 h
          refine ⟨h1, h2, ?_⟩
          rw [h3, wsStream_cons_binary m rest hb, hpay]
          rfl
        · intro c r2 m2 h
          rw [wsConnRead_none_cons, if_pos hb, hpay, wsConnRead_some_nil] at h
          obtain ⟨h1, h2⟩ := ih.2 c r2 m2 h
          refine ⟨h1, ?_⟩
          rw [wsStream_cons_binary m rest hb, hpay, h2]
          rfl
      · constructor
        · intro bytes r2 m2 h
          rw [wsConnRead_none_cons, if_pos hb, hpay, wsConnRead_some_cons] at h
          injection h with h1 h2
          injection h1 with h1
          injection h2 with h2 h3
          subst h1
          subst h2
          subst h3
          refine ⟨by simp ; omega, by simp, ?_⟩
          rw [wsStream_some, wsStream_cons_binary m rest hb, hpay,
            ← List.append_assoc, List.take_append_drop]
        · intro c r2 m2 h
          rw [wsConnRead_none_cons, if_pos hb, hpay, wsConnRead_some_cons] at h
          cases h
    · constructor
      · intro bytes r2 m2 h
        rw [wsConnRead_none_cons, if_neg hb] at h
        obtain ⟨h1, h2, h3⟩ := ih.1 bytes r2 m2 h
        exact ⟨h1, h2, by rw [h3, wsStream_cons_other m rest hb]⟩
      · intro c r2 m2 h
        rw [wsConnRead_none_cons, if_neg hb] at h
        obtain ⟨h1, h2⟩ := ih.2 c r2 m2 h
        exact ⟨h1, by rw [wsStream_cons_other m rest hb, h2]⟩

/-- C10: one call to the WebSocket-to-byte-stream adapter's `Read` with
a non-empty destination buffer (`1 ≤ n`) either delivers at least one
byte — never zero bytes with a `nil` error — taken from the front of the
pending byte stream, i.e. the binary message payloads coalesced in
arrival order with non-binary and empty binary messages contributing
nothing (`wsStream`), or propagates the underlying `NextReader` error
exactly when that stream is empty.  The underlying message reader is
modelled as yielding at least one byte or an error on a non-empty
buffer, as the claim assumes. -/
theorem C10_wsconn_read (n : Nat) (reader : Option (List Nat)) (msgs : List WsMsg)
    (e : Nat) (bytes : List Nat) (reader2 : Option (List Nat)) (msgs2 : List WsMsg)
    (c : Nat) (hn : 1 ≤ n) :
    (wsConnRead n reader msgs e = (.ok bytes, reader2, msgs2) →
      bytes ≠ [] ∧ bytes.length ≤ n ∧
      bytes ++ wsStream reader2 msgs2 = wsStream reader msgs) ∧
    (wsConnRead n reader msgs e = (.fail c, reader2, msgs2) →
      c = e ∧ wsStream reader msgs = []) := by
  rcases reader with - | rbytes
  · exact ⟨(wsConnRead_spec_none n hn e msgs).1 bytes reader2 msgs2,
      (wsConnRead_spec_none n hn e msgs).2 c reader2 msgs2⟩
  · rcases rbytes with - | ⟨b, bs⟩
    · constructor
      · intro h
        rw [wsConnRead_some_nil] at h
        obtain ⟨h1, h2, h3⟩ := (wsConnRead_spec_none n hn e msgs).1 bytes reader2 msgs2 h
        refine ⟨h1, h2, ?_⟩
        rw [h3, wsStream_some]
        rfl
      · intro h
        rw [wsConnRead_some_nil] at h
        obtain ⟨h1, h2⟩ := (wsConnRead_spec_none n hn e msgs).2 c reader2 msgs2 h
        refine ⟨h1, ?_⟩
        rw [wsStream_some, h2]
        rfl
    · constructor
      · intro h
        rw [wsConnRead_some_cons] at h
        injection h with h1 h2
        injection h1 with h1
        injection h2 with h2 h3
        subst h1
        subst h2
        subst h3
        refine ⟨by simp ; omega, by simp, ?_⟩
        rw [wsStream_some, wsStream_some, ← List.append_assoc, List.take_append_drop]
      · intro h
        rw [wsConnRead_some_cons] at h
        cases h

/-- C10 witness: buffer size 2 against a pending text message, an empty
binary message and a binary message `[1, 2, 3]` — the read skips the
first two messages and returns `[1, 2]` (non-empty, within the buffer),
leaving `[3]` in the reader; against a lone text message it returns the
`NextReader` error code 7 with nothing deliverable. -/
theorem C10_wsconn_read_witness :
    (([1, 2] : List Nat) ≠ [] ∧ ([1, 2] : List Nat).length ≤ 2 ∧
      [1, 2] ++ wsStream (some [3]) []
        = wsStream none [⟨.text, [9]⟩, ⟨.binary, []⟩, ⟨.binary, [1, 2, 3]⟩]) ∧
    (7 = 7 ∧ wsStream none [⟨.text, [9]⟩] = []) := by
  have h1 := (C10_wsconn_read 2 none [⟨.text, [9]⟩, ⟨.binary, []⟩, ⟨.binary, [1, 2, 3]⟩] 7
    [1, 2] (some [3]) [] 7 (by decide)).1 (by simp [wsConnRead])
  have h2 := (C10_wsconn_read 2 none [⟨.text, [9]⟩] 7
    [1, 2] none [] 7 (by decide)).2 (by simp [wsConnRead])
  exact ⟨h1, h2⟩

/-- C8 counterexample: with Host-rewrite enabled, local host `127.0.0.1`
and local port 80, the agent HTTP worker forwards Host
`127.0.0.1:80` — the port component is not omitted at port 80, contrary
to the claim. -/
theorem C8_host_rewrite_counterexample :
    handleStreamHost true "original.example.com".data "127.0.0.1".data 80
      = "127.0.0.1:80".data ∧
    "127.0.0.1:80".data ≠ "127.0.0.1".data := by
  constructor
  · decide
  · decide

/-- C8 amended: with Host-rewrite enabled the agent HTTP worker always
sets Host to `<local-host>:<local-port>`, for port 80 as for any other
port — the port component is never omitted (the rewritten value never
equals the bare local host).  The port-80 omission the claim describes
exists only in the helper `protocol.RewriteHostHeader`, which pins the
host to `127.0.0.1` and is not called by the worker. -/
theorem C8_host_rewrite_amended (reqHost localHost : List Char) (localPort : Int) :
    handleStreamHost true reqHost localHost localPort
      = localHost ++ ':' :: itoa localPort ∧
    handleStreamHost false reqHost localHost localPort = reqHost ∧
    handleStreamHost true reqHost localHost localPort ≠ localHost ∧
    RewriteHostHeader 80 = "127.0.0.1".data := by
  refine ⟨rfl, rfl, ?_, by decide⟩
  intro h
  have h2 := congrArg List.length h
  simp [handleStreamHost, List.length_append] at h2

/-- C7 counterexample: a successful concrete `tcp` handshake (secret
`s3cret`, fresh tenant `mydb`, port range 10000..10100) attaches the
allocated port 10000 under the response header `X-Exio-TCP-Port`; the
response carries no header named `X-Tunnel-Port`. -/
theorem C7_port_header_counterexample :
    handleConnect "s3cret".data "Bearer s3cret".data "mydb".data TunnelTypeTCP [] []
      10000 10100 true
      = .upgrade "mydb".data TunnelTypeTCP (some 10000)
          [("X-Exio-TCP-Port".data, "10000".data)] ∧
    ([("X-Exio-TCP-Port".data, "10000".data)].lookup "X-Tunnel-Port".data
      = (none : Option (List Char))) := by
  constructor
  · decide
  · decide

/-- C7 amended: every successful `tcp` handshake — bearer accepted,
tenant-id present and valid, not live, a port allocated — upgrades with
the response header named `X-Exio-TCP-Port` (not `X-Tunnel-Port`)
carrying the allocated public port, and the agent reads the assigned
port back from that same `X-Exio-TCP-Port` response header; the
response carries no `X-Tunnel-Port` header. -/
theorem C7_port_header_amended (token authHeader subParam : List Char)
    (registry : List (List Char)) (allocated st2 : List Nat)
    (portStart portEnd p : Nat)
    (ha : ValidateRequest token authHeader = none) (hsub : subParam ≠ [])
    (hv : ValidateSubdomain subParam = true)
    (hex : registryExists registry subParam = false)
    (hstart : 0 < portStart)
    (halloc : AllocateTCPPort allocated portStart portEnd = some (p, st2)) :
    handleConnect token authHeader subParam TunnelTypeTCP registry allocated
        portStart portEnd true
      = .upgrade (goToLower subParam) TunnelTypeTCP (some p)
          [("X-Exio-TCP-Port".data, itoa p)] ∧
    clientReadTCPPortHeader [("X-Exio-TCP-Port".data, itoa p)] = itoa p ∧
    ([("X-Exio-TCP-Port".data, itoa p)].lookup "X-Tunnel-Port".data
      = (none : Option (List Char))) := by
  have hp : 0 < p := by
    unfold AllocateTCPPort at halloc
    cases hscan : allocScan allocated portStart (portEnd + 1 - portStart) with
    | none =>
      rw [hscan] at halloc
      exact absurd halloc (by simp)
    | some p0 =>
      rw [hscan] at halloc
      have h1 := (allocScan_some _ _ _ hscan).1
      have h2 : p0 = p := congrArg Prod.fst (Option.some.inj halloc)
      omega
  refine ⟨?_, ?_, ?_⟩
  · simp [handleConnect, ha, hsub, validateSubdomain_goToLower, hv,
      registryExists_goToLower, hex, halloc, hp, TunnelTypeTCP, TunnelTypeHTTP]
  · simp [clientReadTCPPortHeader, List.lookup]
  · have hne : ("X-Tunnel-Port".data == "X-Exio-TCP-Port".data) = false := by decide
    simp [List.lookup, hne]

/-- C7 amended witness: the concrete handshake of the counterexample —
secret `s3cret`, fresh tenant `mydb`, first free port 10000 — upgrades
with header `X-Exio-TCP-Port: 10000`, which the agent reads back; no
`X-Tunnel-Port` entry exists. -/
theorem C7_port_header_amended_witness :
    handleConnect "s3cret".data "Bearer s3cret".data "mydb".data TunnelTypeTCP [] []
        10000 10100 true
      = .upgrade (goToLower "mydb".data) TunnelTypeTCP (some 10000)
          [("X-Exio-TCP-Port".data, itoa 10000)] ∧
    clientReadTCPPortHeader [("X-Exio-TCP-Port".data, itoa 10000)] = itoa 10000 ∧
    ([("X-Exio-TCP-Port".data, itoa 10000)].lookup "X-Tunnel-Port".data
      = (none : Option (List Char))) :=
  C7_port_header_amended "s3cret".data "Bearer s3cret".data "mydb".data [] [] [10000]
    10000 10100 10000 (by decide) (by decide) (by decide) (by decide) (by decide) (by decide)

/-- C6 counterexample: with tenant `myapp` live, the follow-up request
`/assets/style.css` carrying a cookie literally named `x-tunnel` with
value `myapp` is NOT routed — the router answers 404, because the
routing cookie the code reads is named `exio_tunnel`.  The claim's
predicted outcome (routed to `myapp` with the path unchanged) is a
different constructor. -/
theorem C6_cookie_name_counterexample :
    handleRequestPathMode ["myapp".data] "/assets/style.css".data
        [("x-tunnel".data, "myapp".data)] [] = .notFound ∧
    RouteOutcome.notFound
      ≠ .routed "myapp".data "/assets/style.css".data none := by
  constructor
  · decide
  · decide

/-- C6 amended: the routing cookie is named `exio_tunnel` (not
`x-tunnel`); with that name the claim holds: a request whose first path
segment is not a live tenant but whose `exio_tunnel` cookie holds a
live tenant-id is routed to that tenant with the path unchanged and no
cookie emitted; a request resolved from the path prefix is routed with
the prefix stripped and the routing cookie emitted with path `/`,
HTTP-only, same-site lax, max-age 3600 s; and a routing cookie is
emitted only when the tenant was resolved from the path prefix. -/
theorem C6_cookie_routing_amended (registry : List (List Char))
    (path path2 : List Char) (cookies : List (List Char × List Char))
    (referer v : List Char)
    (reg3 : List (List Char)) (path3 : List Char)
    (cookies3 : List (List Char × List Char)) (ref3 : List Char)
    (t p : List Char) (ck : SetCookie)
    (h1 : ExtractTunnelIDFromPath path = [] ∨
      registryExists registry (ExtractTunnelIDFromPath path) = false)
    (h2 : cookies.lookup routingCookieName = some v)
    (h3 : v ≠ []) (h4 : registryExists registry v = true)
    (h5 : ExtractTunnelIDFromPath path2 ≠ [])
    (h6 : registryExists registry (ExtractTunnelIDFromPath path2) = true)
    (h7 : handleRequestPathMode reg3 path3 cookies3 ref3 = .routed t p (some ck)) :
    handleRequestPathMode registry path cookies referer = .routed v path none ∧
    handleRequestPathMode registry path2 cookies referer
      = .routed (ExtractTunnelIDFromPath path2)
          (stripTunnelID path2 (ExtractTunnelIDFromPath path2))
          (some { name := routingCookieName, value := ExtractTunnelIDFromPath path2,
                  path := "/".data, maxAge := 3600, httpOnly := true,
                  sameSite := .laxMode }) ∧
    (ExtractTunnelIDFromPath path3 ≠ [] ∧
      registryExists reg3 (ExtractTunnelIDFromPath path3) = true) := by
  refine ⟨?_, ?_, ?_⟩
  · have hA : ¬ (ExtractTunnelIDFromPath path ≠ [] ∧
        registryExists registry (ExtractTunnelIDFromPath path) = true) := by
      rcases h1 with h | h
      · exact fun hc => hc.1 h
      · intro hc
        rw [h] at hc
        exact Bool.false_ne_true hc.2
    simp [handleRequestPathMode, hA, h2, h3, h4]
  · simp [handleRequestPathMode, h5, h6]
  · by_cases hc : (ExtractTunnelIDFromPath path3 ≠ [] ∧
        registryExists reg3 (ExtractTunnelIDFromPath path3) = true)
    · exact hc
    · have hcb : (decide (ExtractTunnelIDFromPath path3 ≠ []) &&
          registryExists reg3 (ExtractTunnelIDFromPath path3)) = false := by
        cases he : registryExists reg3 (ExtractTunnelIDFromPath path3) with
        | false => simp [he]
        | true =>
          have hd : ExtractTunnelIDFromPath path3 = [] := by
            by_contra hd
            exact hc ⟨hd, he⟩
          simp [hd]
      simp only [handleRequestPathMode] at h7
      rw [hcb] at h7
      simp only [Bool.false_eq_true, if_false] at h7
      rw [ite_eq_iff] at h7
      rcases h7 with ⟨-, h7⟩ | ⟨-, h7⟩
      · exact RouteOutcome.noConfusion h7
      · injection h7 with hh1 hh2 hh3
        exact Option.noConfusion hh3


/-- C6 amended witness: tenant `myapp` live — the request
`/assets/style.css` with cookie `exio_tunnel=myapp` routes to `myapp`
with the path unchanged and no cookie emitted, while `/myapp/foo`
routes from the path with the prefix stripped and the `exio_tunnel`
cookie emitted (path `/`, max-age 3600, HTTP-only, same-site lax). -/
theorem C6_cookie_routing_amended_witness :
    handleRequestPathMode ["myapp".data] "/assets/style.css".data
        [("exio_tunnel".data, "myapp".data)] []
      = .routed "myapp".data "/assets/style.css".data none ∧
    handleRequestPathMode ["myapp".data] "/myapp/foo".data
        [("exio_tunnel".data, "myapp".data)] []
      = .routed (ExtractTunnelIDFromPath "/myapp/foo".data)
          (stripTunnelID "/myapp/foo".data (ExtractTunnelIDFromPath "/myapp/foo".data))
          (some { name := routingCookieName,
                  value := ExtractTunnelIDFromPath "/myapp/foo".data,
                  path := "/".data, maxAge := 3600, httpOnly := true,
                  sameSite := .laxMode }) ∧
    (ExtractTunnelIDFromPath "/myapp/foo".data ≠ [] ∧
      registryExists ["myapp".data] (ExtractTunnelIDFromPath "/myapp/foo".data) = true) :=
  C6_cookie_routing_amended ["myapp".data] "/assets/style.css".data "/myapp/foo".data
    [("exio_tunnel".data, "myapp".data)] [] "myapp".data
    ["myapp".data] "/myapp/foo".data [] []
    "myapp".data "/foo".data
    { name := routingCookieName, value := "myapp".data, path := "/".data,
      maxAge := 3600, httpOnly := true, sameSite := .laxMode }
    (Or.inr (by decide)) (by decide) (by decide) (by decide) (by decide) (by decide)
    (by decide)

end Exio
